import Mathlib

/-!
Shallow embedding of the `workshop` ink! contract (`src/lib.rs`): a custodial
balance ledger holding a `Mapping<AccountId, u128>` with three messages,
`get_balance_by_account`, `deposit` and `withdraw`.

The host environment (caller identity, attached value, the outbound
`env().transfer`) is passed in as explicit arguments.  Each mutating message
is embedded as a function returning its `Result` together with the ordered
trace of primitive effects it performs (storage inserts, transfer
invocations, event emissions); the post-state is obtained by folding the
trace over the pre-state.  This keeps the order of the debit relative to the
transfer observable.
-/

/-- Account identifiers are opaque comparable values; modelled as `Nat`. -/
abbrev AccountId := Nat

/-- `u128` amounts, modelled as `Nat`; additions that can overflow are
reduced modulo `2 ^ 128`. -/
abbrev Balance := Nat

/-- The `u128` modulus. -/
def U128_MOD : Nat := 2 ^ 128

/-- The contract's `ContractError` enum (`src/lib.rs` lines 25-30). -/
inductive ContractError where
  | AccountWithoutBalance
  | InsufficientFunds
  | ExpectedWithdrawalAmountExceedsAccountBalance
  | WithdrawTransferFailed
deriving DecidableEq, Repr

/-- The contract storage (`src/lib.rs` lines 32-36):
`balances: Mapping<AccountId, u128>`, modelled as a partial map. -/
structure Workshop where
  balances : AccountId → Option Balance

/-- `Workshop::new`: the mapping starts empty. -/
def Workshop.new : Workshop := ⟨fun _ => none⟩

/-- The contract's two events (`src/lib.rs` lines 11-21).  The Rust field
`from` is a Lean keyword, so the emitter field is called `source`. -/
inductive Event where
  | Deposited (source : AccountId) (balance : Balance)
  | Withdrawn (dest : AccountId) (balance : Balance)
deriving DecidableEq, Repr

/-- Primitive effects a message can perform, in the order the code performs
them: a storage insert (`self.balances.insert`), an invocation of the host
transfer capability (`self.env().transfer`), or an event emission. -/
inductive Effect where
  | insertBalance (account : AccountId) (value : Balance)
  | transfer (dest : AccountId) (amount : Balance)
  | emitDeposited (source : AccountId) (balance : Balance)
  | emitWithdrawn (dest : AccountId) (balance : Balance)
deriving DecidableEq, Repr

/-- Effect of one primitive action on the storage.  Only `insertBalance`
touches the mapping; `Mapping::insert` overwrites or creates the key and
never removes one. -/
def applyAction (s : Workshop) : Effect → Workshop
  | .insertBalance account value =>
      ⟨fun a => if a = account then some value else s.balances a⟩
  | _ => s

/-- Fold a trace of actions over a pre-state to get the post-state. -/
def applyTrace (s : Workshop) (t : List Effect) : Workshop :=
  t.foldl applyAction s

/-- The transfer-capability invocations contained in a trace, in order,
each as a `(to, amount)` pair. -/
def transfersOf (t : List Effect) : List (AccountId × Balance) :=
  t.filterMap fun a =>
    match a with
    | .transfer dest amount => some (dest, amount)
    | _ => none

/-- The events emitted by a trace, in order. -/
def eventsOf (t : List Effect) : List Event :=
  t.filterMap fun a =>
    match a with
    | .emitDeposited source balance => some (.Deposited source balance)
    | .emitWithdrawn dest balance => some (.Withdrawn dest balance)
    | _ => none

/-- `get_balance_by_account` (`src/lib.rs` lines 47-54): look up the
caller's entry; `Ok` with the stored amount if present,
`Err(AccountWithoutBalance)` if absent.  A `&self` message: it returns no
new state. -/
def get_balance_by_account (self : Workshop) (caller : AccountId) :
    Except ContractError Balance :=
  match self.balances caller with
  | some account_balance => .ok account_balance
  | none => .error .AccountWithoutBalance

/-- `check_and_get_transferred_funds` (`src/lib.rs` lines 108-115):
reject a zero attached value with `InsufficientFunds`, otherwise return it.
`transferred_value` is the value the host attached to the call. -/
def check_and_get_transferred_funds (transferred_value : Balance) :
    Except ContractError Balance :=
  if transferred_value = 0 then .error .InsufficientFunds
  else .ok transferred_value

/-- `deposit` (`src/lib.rs` lines 57-72).  Returns the `Result` and the
trace of effects.  The addition is the Rust `u128` addition, reduced
modulo `2 ^ 128`.  The `Deposited` event carries `transferred_funds`,
the amount just added, not the new total. -/
def deposit (self : Workshop) (caller : AccountId)
    (transferred_value : Balance) :
    Except ContractError Unit × List Effect :=
  match check_and_get_transferred_funds transferred_value with
  | .error e => (.error e, [])
  | .ok transferred_funds =>
    let account_balance := (get_balance_by_account self caller).toOption.getD 0
    let new_balance := (account_balance + transferred_funds) % U128_MOD
    (.ok (),
      [.insertBalance caller new_balance,
       .emitDeposited caller transferred_funds])

/-- `withdraw` (`src/lib.rs` lines 75-102).  `transfer_ok` is the outcome
the host transfer capability reports when (and only when) it is invoked.
Returns the `Result` and the trace of effects, in source order: the
storage debit happens before the transfer invocation, and the `Withdrawn`
event is emitted only after a successful transfer. -/
def withdraw (self : Workshop) (caller : AccountId)
    (withdrawal_amount : Option Balance) (transfer_ok : Bool) :
    Except ContractError Unit × List Effect :=
  match get_balance_by_account self caller with
  | .error e => (.error e, [])
  | .ok account_balance =>
    if account_balance = 0 then
      (.error .AccountWithoutBalance, [])
    else
      let withdrawal_amount := withdrawal_amount.getD account_balance
      if withdrawal_amount > account_balance then
        (.error .ExpectedWithdrawalAmountExceedsAccountBalance, [])
      else
        let new_balance := account_balance - withdrawal_amount
        if transfer_ok then
          (.ok (),
            [.insertBalance caller new_balance,
             .transfer caller withdrawal_amount,
             .emitWithdrawn caller withdrawal_amount])
        else
          (.error .WithdrawTransferFailed,
            [.insertBalance caller new_balance,
             .transfer caller withdrawal_amount])

/-- A sample state with account `0` holding balance `5`, used by witnesses. -/
def W5 : Workshop := ⟨fun a => if a = 0 then some 5 else none⟩

/-- A sample state with account `0` holding a stored balance of `0`,
used by witnesses and counterexamples. -/
def Wz : Workshop := ⟨fun a => if a = 0 then some 0 else none⟩

/-! ## Helper lemmas -/

theorem get_balance_some (s : Workshop) (caller : AccountId) (b : Balance)
    (hb : s.balances caller = some b) :
    get_balance_by_account s caller = .ok b := by
  simp [get_balance_by_account, hb]

theorem get_balance_none (s : Workshop) (caller : AccountId)
    (hb : s.balances caller = none) :
    get_balance_by_account s caller = .error .AccountWithoutBalance := by
  simp [get_balance_by_account, hb]

/-- The internal balance read in `deposit` (`unwrap_or(0)`) equals the stored
value, with absence read as `0`. -/
theorem internal_balance_eq (s : Workshop) (caller : AccountId) :
    (get_balance_by_account s caller).toOption.getD 0
      = (s.balances caller).getD 0 := by
  cases h : s.balances caller <;>
    simp [get_balance_by_account, h, Except.toOption]

/-- Full characterisation of `withdraw` on the path where the caller has a
positive balance `b` and the resolved amount is at most `b`: the trace debits
the mapping first, then invokes the transfer, and emits `Withdrawn` only on
transfer success. -/
theorem withdraw_eq_success (s : Workshop) (caller : AccountId) (b : Balance)
    (req : Option Balance) (transfer_ok : Bool)
    (hb : s.balances caller = some b) (h0 : b ≠ 0) (hw : req.getD b ≤ b) :
    withdraw s caller req transfer_ok =
      (if transfer_ok then
        ((.ok () : Except ContractError Unit),
          [.insertBalance caller (b - req.getD b),
           .transfer caller (req.getD b),
           .emitWithdrawn caller (req.getD b)])
       else
        ((.error .WithdrawTransferFailed : Except ContractError Unit),
          [.insertBalance caller (b - req.getD b),
           .transfer caller (req.getD b)])) := by
  simp [withdraw, get_balance_by_account, hb, h0, Nat.not_lt.mpr hw]

theorem applyAction_preserves_isSome (s : Workshop) (e : Effect)
    (a : AccountId) (h : (s.balances a).isSome = true) :
    ((applyAction s e).balances a).isSome = true := by
  cases e with
  | insertBalance account value =>
      by_cases hac : a = account <;> simp [applyAction, hac, h]
  | transfer dest amount => exact h
  | emitDeposited source balance => exact h
  | emitWithdrawn dest balance => exact h

theorem applyTrace_preserves_isSome (t : List Effect) (s : Workshop)
    (a : AccountId) (h : (s.balances a).isSome = true) :
    ((applyTrace s t).balances a).isSome = true := by
  induction t generalizing s with
  | nil => exact h
  | cons e t ih => exact ih (applyAction s e) (applyAction_preserves_isSome s e a h)

/-! ## Claim theorems -/

/-- Claim C1: for every account with stored balance `b > 0` and withdrawal
request `some w` with `w ≤ b`, `withdraw` succeeds, the stored balance
afterwards is `b - w`, the transfer capability is invoked with exactly
`(caller, w)` (whatever outcome it then reports), and on transfer success a
`Withdrawn` event with `(caller, w)` is emitted. -/
theorem withdraw_exact_debit_and_transfer (s : Workshop) (caller : AccountId)
    (b w : Balance) (hb : s.balances caller = some b) (hpos : 0 < b)
    (hw : w ≤ b) :
    (withdraw s caller (some w) true).1 = .ok () ∧
    (applyTrace s (withdraw s caller (some w) true).2).balances caller
      = some (b - w) ∧
    (∀ transfer_ok : Bool,
      transfersOf (withdraw s caller (some w) transfer_ok).2 = [(caller, w)]) ∧
    eventsOf (withdraw s caller (some w) true).2
      = [Event.Withdrawn caller w] := by
  have h0 : b ≠ 0 := hpos.ne'
  have hgetd : (some w).getD b = w := rfl
  refine ⟨?_, ?_, ?_, ?_⟩
  · rw [withdraw_eq_success s caller b (some w) true hb h0 (by simpa using hw)]
    rfl
  · rw [withdraw_eq_success s caller b (some w) true hb h0 (by simpa using hw)]
    simp [applyTrace, applyAction]
  · intro transfer_ok
    rw [withdraw_eq_success s caller b (some w) transfer_ok hb h0
      (by simpa using hw)]
    cases transfer_ok <;> simp [transfersOf]
  · rw [withdraw_eq_success s caller b (some w) true hb h0 (by simpa using hw)]
    simp [eventsOf]

/-- Witness for C1 at the state `W5` (account `0` holds `5`), withdrawing
`3`. -/
theorem withdraw_exact_debit_and_transfer_witness :
    W5.balances 0 = some 5 ∧ (0 : Balance) < 5 ∧ (3 : Balance) ≤ 5 ∧
    ((withdraw W5 0 (some 3) true).1 = .ok () ∧
      (applyTrace W5 (withdraw W5 0 (some 3) true).2).balances 0 = some 2 ∧
      transfersOf (withdraw W5 0 (some 3) true).2 = [(0, 3)] ∧
      eventsOf (withdraw W5 0 (some 3) true).2 = [Event.Withdrawn 0 3]) := by
  have h := withdraw_exact_debit_and_transfer W5 0 5 3 rfl (by decide) (by decide)
  exact ⟨rfl, by decide, by decide, h.1, h.2.1, h.2.2.1 true, h.2.2.2⟩

/-- Claim C2: for every caller and non-zero attached value `d` whose sum with
the prior balance (`0` if no entry) does not overflow `u128`, `deposit`
succeeds, stores `prior + d`, and emits `Deposited (caller, d)` — the amount
just added, not the new total.  The success of the result needs only
`d ≠ 0`: once the zero-value check passes there is no failure path. -/
theorem deposit_adds_and_emits_amount (s : Workshop) (caller : AccountId)
    (d : Balance) (hd : d ≠ 0)
    (hov : (s.balances caller).getD 0 + d < U128_MOD) :
    (deposit s caller d).1 = .ok () ∧
    (applyTrace s (deposit s caller d).2).balances caller
      = some ((s.balances caller).getD 0 + d) ∧
    eventsOf (deposit s caller d).2 = [Event.Deposited caller d] := by
  have hred : deposit s caller d =
      (.ok (),
        [.insertBalance caller ((s.balances caller).getD 0 + d) ,
         .emitDeposited caller d]) := by
    simp [deposit, check_and_get_transferred_funds, hd, internal_balance_eq,
      Nat.mod_eq_of_lt hov]
  rw [hred]
  refine ⟨rfl, ?_, by simp [eventsOf]⟩
  simp [applyTrace, applyAction]

/-- Witness for C2 at `W5` (account `0` holds `5`), depositing `7`. -/
theorem deposit_adds_and_emits_amount_witness :
    (7 : Balance) ≠ 0 ∧ (W5.balances 0).getD 0 + 7 < U128_MOD ∧
    ((deposit W5 0 7).1 = .ok () ∧
      (applyTrace W5 (deposit W5 0 7).2).balances 0 = some 12 ∧
      eventsOf (deposit W5 0 7).2 = [Event.Deposited 0 7]) := by
  have h := deposit_adds_and_emits_amount W5 0 7 (by decide) (by decide)
  exact ⟨by decide, by decide, h.1, h.2.1, h.2.2⟩

/-- Claim C3: on the withdrawable path the trace of `withdraw` places the
storage debit strictly before the transfer invocation, the mapping already
holds `b - w` at the moment the transfer runs, and when the transfer reports
failure the result is `WithdrawTransferFailed` while the debited value
`b - w` remains stored — no rollback is performed by the operation itself. -/
theorem withdraw_debit_precedes_transfer (s : Workshop) (caller : AccountId)
    (b : Balance) (req : Option Balance) (hb : s.balances caller = some b)
    (hpos : 0 < b) (hw : req.getD b ≤ b) :
    withdraw s caller req false =
      (.error .WithdrawTransferFailed,
        [.insertBalance caller (b - req.getD b),
         .transfer caller (req.getD b)]) ∧
    (applyTrace s [.insertBalance caller (b - req.getD b)]).balances caller
      = some (b - req.getD b) ∧
    (applyTrace s (withdraw s caller req false).2).balances caller
      = some (b - req.getD b) := by
  have hred := withdraw_eq_success s caller b req false hb hpos.ne' hw
  simp only [if_neg (Bool.false_ne_true)] at hred
  refine ⟨hred, by simp [applyTrace, applyAction], ?_⟩
  rw [hred]
  simp [applyTrace, applyAction]

/-- Witness for C3 at `W5` (account `0` holds `5`), requesting `3` with a
failing transfer. -/
theorem withdraw_debit_precedes_transfer_witness :
    W5.balances 0 = some 5 ∧ (0 : Balance) < 5 ∧
    (some (3 : Balance)).getD 5 ≤ 5 ∧
    (withdraw W5 0 (some 3) false =
      (.error .WithdrawTransferFailed,
        [.insertBalance 0 2, .transfer 0 3]) ∧
      (applyTrace W5 (withdraw W5 0 (some 3) false).2).balances 0
        = some 2) := by
  have h := withdraw_debit_precedes_transfer W5 0 5 (some 3) rfl (by decide)
    (by decide)
  exact ⟨rfl, by decide, by decide, h.1, h.2.2⟩

/-- Claim C4: `get_balance_by_account` returns `Ok` with exactly the stored
amount when the caller's entry is present and `Err(AccountWithoutBalance)`
when no entry exists.  It is a `&self` message in the source: the embedding
returns no new state, so the mapping is unchanged in both cases. -/
theorem get_balance_by_account_spec (s : Workshop) (caller : AccountId) :
    (∀ b : Balance, s.balances caller = some b →
      get_balance_by_account s caller = .ok b) ∧
    (s.balances caller = none →
      get_balance_by_account s caller = .error .AccountWithoutBalance) :=
  ⟨fun b hb => get_balance_some s caller b hb,
   fun hn => get_balance_none s caller hn⟩

/-- Witness for C4: at `W5`, account `0` (present with `5`) and account `1`
(absent). -/
theorem get_balance_by_account_spec_witness :
    get_balance_by_account W5 0 = .ok 5 ∧
    get_balance_by_account W5 1 = .error .AccountWithoutBalance :=
  ⟨(get_balance_by_account_spec W5 0).1 5 rfl,
   (get_balance_by_account_spec W5 1).2 rfl⟩

/-- Claim C5: for a caller with stored balance `b > 0`, `withdraw none`
behaves exactly as withdrawing the full balance `some b`: it succeeds and
leaves the stored balance at `0`. -/
theorem withdraw_none_is_full_withdrawal (s : Workshop) (caller : AccountId)
    (b : Balance) (hb : s.balances caller = some b) (hpos : 0 < b) :
    (withdraw s caller none true).1 = .ok () ∧
    (applyTrace s (withdraw s caller none true).2).balances caller
      = some 0 ∧
    (∀ transfer_ok : Bool,
      withdraw s caller none transfer_ok
        = withdraw s caller (some b) transfer_ok) := by
  have h0 : b ≠ 0 := hpos.ne'
  have hred := withdraw_eq_success s caller b none true hb h0 (by simp)
  refine ⟨?_, ?_, ?_⟩
  · rw [hred]; rfl
  · rw [hred]
    simp [applyTrace, applyAction]
  · intro transfer_ok
    rw [withdraw_eq_success s caller b none transfer_ok hb h0 (by simp),
      withdraw_eq_success s caller b (some b) transfer_ok hb h0 (by simp)]
    rfl

/-- Witness for C5 at `W5` (account `0` holds `5`). -/
theorem withdraw_none_is_full_withdrawal_witness :
    W5.balances 0 = some 5 ∧ (0 : Balance) < 5 ∧
    ((withdraw W5 0 none true).1 = .ok () ∧
      (applyTrace W5 (withdraw W5 0 none true).2).balances 0 = some 0 ∧
      withdraw W5 0 none true = withdraw W5 0 (some 5) true) := by
  have h := withdraw_none_is_full_withdrawal W5 0 5 rfl (by decide)
  exact ⟨rfl, by decide, h.1, h.2.1, h.2.2 true⟩

/-- Claim C6: when the caller's entry is absent, or present with stored
balance exactly `0`, `withdraw` returns `Err(AccountWithoutBalance)` with an
empty effect trace: the transfer capability is not invoked and the mapping
is unchanged. -/
theorem withdraw_absent_or_zero_rejected (s : Workshop) (caller : AccountId)
    (req : Option Balance) (transfer_ok : Bool)
    (h : s.balances caller = none ∨ s.balances caller = some 0) :
    (withdraw s caller req transfer_ok).1 = .error .AccountWithoutBalance ∧
    (withdraw s caller req transfer_ok).2 = [] ∧
    transfersOf (withdraw s caller req transfer_ok).2 = [] ∧
    applyTrace s (withdraw s caller req transfer_ok).2 = s := by
  rcases h with h | h <;>
    simp [withdraw, get_balance_by_account, h, transfersOf, applyTrace]

/-- Witness for C6: a fresh account (`Workshop.new`, no entry) and the state
`Wz` (account `0` stored with `0`). -/
theorem withdraw_absent_or_zero_rejected_witness :
    ((withdraw Workshop.new 0 none true).1
        = .error .AccountWithoutBalance ∧
      (withdraw Workshop.new 0 none true).2 = []) ∧
    ((withdraw Wz 0 (some 1) true).1 = .error .AccountWithoutBalance ∧
      (withdraw Wz 0 (some 1) true).2 = []) := by
  have h1 := withdraw_absent_or_zero_rejected Workshop.new 0 none true
    (Or.inl rfl)
  have h2 := withdraw_absent_or_zero_rejected Wz 0 (some 1) true (Or.inr rfl)
  exact ⟨⟨h1.1, h1.2.1⟩, ⟨h2.1, h2.2.1⟩⟩

/-- Counterexample for claim C7 as stated: at the state `Wz` the caller `0`
has a stored balance `b = 0` and requests `w = 1 > 0 = b`, yet `withdraw`
returns `Err(AccountWithoutBalance)`, not
`Err(ExpectedWithdrawalAmountExceedsAccountBalance)`: the zero-balance guard
at `src/lib.rs` line 79 fires first. -/
theorem withdraw_excess_claim_cex :
    Wz.balances 0 = some 0 ∧ (0 : Balance) < 1 ∧
    (withdraw Wz 0 (some 1) true).1 = .error .AccountWithoutBalance ∧
    (withdraw Wz 0 (some 1) true).1 ≠
      .error .ExpectedWithdrawalAmountExceedsAccountBalance :=
  ⟨rfl, by decide, rfl,
   fun h => ContractError.noConfusion (Except.error.inj h)⟩

/-- Claim C7 amended (the stored balance must be positive, else the
zero-balance guard returns `AccountWithoutBalance` first): for every caller
with stored balance `b > 0` and requested amount `w > b`, `withdraw` returns
`Err(ExpectedWithdrawalAmountExceedsAccountBalance)` with an empty effect
trace — the balance is unchanged and no transfer occurs. -/
theorem withdraw_excess_rejected (s : Workshop) (caller : AccountId)
    (b w : Balance) (transfer_ok : Bool) (hb : s.balances caller = some b)
    (hpos : 0 < b) (hgt : b < w) :
    (withdraw s caller (some w) transfer_ok).1
      = .error .ExpectedWithdrawalAmountExceedsAccountBalance ∧
    (withdraw s caller (some w) transfer_ok).2 = [] ∧
    transfersOf (withdraw s caller (some w) transfer_ok).2 = [] ∧
    applyTrace s (withdraw s caller (some w) transfer_ok).2 = s := by
  simp [withdraw, get_balance_by_account, hb, hpos.ne', hgt, transfersOf,
    applyTrace]

/-- Witness for the amended C7 at `W5` (account `0` holds `5`),
requesting `9`. -/
theorem withdraw_excess_rejected_witness :
    W5.balances 0 = some 5 ∧ (0 : Balance) < 5 ∧ (5 : Balance) < 9 ∧
    ((withdraw W5 0 (some 9) true).1
        = .error .ExpectedWithdrawalAmountExceedsAccountBalance ∧
      (withdraw W5 0 (some 9) true).2 = []) := by
  have h := withdraw_excess_rejected W5 0 5 9 true rfl (by decide) (by decide)
  exact ⟨rfl, by decide, by decide, h.1, h.2.1⟩

/-- Claim C8: for every state and caller, `deposit` with attached value
exactly `0` returns `Err(InsufficientFunds)` with an empty effect trace, so
the mapping is unchanged. -/
theorem deposit_zero_rejected (s : Workshop) (caller : AccountId) :
    (deposit s caller 0).1 = .error .InsufficientFunds ∧
    (deposit s caller 0).2 = [] ∧
    applyTrace s (deposit s caller 0).2 = s := by
  simp [deposit, check_and_get_transferred_funds, applyTrace]

/-- Claim C9: an account entry, once present, stays present after every
operation whatever its arguments and outcome: `get_balance_by_account` is
read-only, and the traces of `deposit` and `withdraw` only ever insert into
the mapping — `Mapping::insert` never removes a key. -/
theorem entry_never_removed (s : Workshop) (caller a : AccountId)
    (h : (s.balances a).isSome = true) :
    ∀ (tv : Balance) (req : Option Balance) (transfer_ok : Bool),
      ((applyTrace s (deposit s caller tv).2).balances a).isSome = true ∧
      ((applyTrace s (withdraw s caller req transfer_ok).2).balances a).isSome
        = true :=
  fun tv req transfer_ok =>
    ⟨applyTrace_preserves_isSome (deposit s caller tv).2 s a h,
     applyTrace_preserves_isSome (withdraw s caller req transfer_ok).2 s a h⟩

/-- Witness for C9: account `0` of `W5` survives a full withdrawal and a
deposit by the same account. -/
theorem entry_never_removed_witness :
    (W5.balances 0).isSome = true ∧
    (((applyTrace W5 (deposit W5 0 7).2).balances 0).isSome = true ∧
      ((applyTrace W5 (withdraw W5 0 none true).2).balances 0).isSome
        = true) := by
  have h := entry_never_removed W5 0 0 (by decide) 7 none true
  exact ⟨by decide, h.1, h.2⟩

/-- Claim C10 (frame): for any other account `a ≠ caller`, the stored entry
of `a` — including its presence or absence — is untouched by any `deposit`
or `withdraw` invocation of `caller`, whatever the arguments and outcome. -/
theorem other_accounts_untouched (s : Workshop) (caller a : AccountId)
    (hne : a ≠ caller) :
    ∀ (tv : Balance) (req : Option Balance) (transfer_ok : Bool),
      (applyTrace s (deposit s caller tv).2).balances a = s.balances a ∧
      (applyTrace s (withdraw s caller req transfer_ok).2).balances a
        = s.balances a := by
  intro tv req transfer_ok
  constructor
  · by_cases htv : tv = 0
    · simp [deposit, check_and_get_transferred_funds, htv, applyTrace]
    · simp [deposit, check_and_get_transferred_funds, htv, applyTrace,
        applyAction, hne]
  · cases hsb : s.balances caller with
    | none => simp [withdraw, get_balance_by_account, hsb, applyTrace]
    | some b =>
      by_cases hb0 : b = 0
      · simp [withdraw, get_balance_by_account, hsb, hb0, applyTrace]
      · by_cases hlt : b < req.getD b
        · simp [withdraw, get_balance_by_account, hsb, hb0, hlt, applyTrace]
        · cases transfer_ok <;>
            simp [withdraw, get_balance_by_account, hsb, hb0, hlt,
              applyTrace, applyAction, hne]

/-- Witness for C10: account `0` of `W5` is untouched by account `1`
depositing and withdrawing. -/
theorem other_accounts_untouched_witness :
    (0 : AccountId) ≠ 1 ∧
    ((applyTrace W5 (deposit W5 1 7).2).balances 0 = W5.balances 0 ∧
      (applyTrace W5 (withdraw W5 1 none true).2).balances 0
        = W5.balances 0) := by
  have h := other_accounts_untouched W5 1 0 (by decide) 7 none true
  exact ⟨by decide, h.1, h.2⟩
